import Mathlib

/-!
Verification development for the officeworks-harmony-suite core components:
the Time-Accounting Engine (worked-hours and leave-day computation), the
Sequential ID Allocator (`generate_user_id`), the leave-request lifecycle,
the attendance upsert and the user-update operation.

Instants are modelled as integer milliseconds since the epoch (the value of
JavaScript `Date.getTime()`); fractional hours are modelled as rationals.
-/

namespace Harmony

/-!
### Time-Accounting Engine

From `src/src/pages/Dashboard.tsx`, `createAttendanceMutation` (lines 933-944):

```
let totalHours = 0;
if (clockIn && clockOut) {
  const start = new Date(clockIn);
  const end = new Date(clockOut);
  let workTime = (end.getTime() - start.getTime()) / (1000 * 60 * 60);
  if (breakStart && breakEnd) {
    const breakDuration = (new Date(breakEnd).getTime() - new Date(breakStart).getTime()) / (1000 * 60 * 60);
    workTime -= breakDuration;
  }
  totalHours = Math.max(0, workTime);
}
```
-/

/-- A pair of optional instants (ms since epoch): clock-in/out or
break-start/end.  `stop` models the field called `end` in the spec
(`end` is reserved in Lean). -/
structure TimeInterval where
  start : Option Int
  stop : Option Int
deriving Repr, DecidableEq

/-- Worked hours as computed by `createAttendanceMutation` in
`src/src/pages/Dashboard.tsx`: `0` unless both clock-in and clock-out are
present; otherwise the span in fractional hours, minus the break span when
both break endpoints are present, clamped below by `0` via `Math.max`. -/
def computeWorkedHours (work brk : TimeInterval) : ℚ :=
  match work.start, work.stop with
  | some s, some e =>
    let workTime : ℚ := ((e : ℚ) - (s : ℚ)) / (1000 * 60 * 60)
    let workTime : ℚ :=
      match brk.start, brk.stop with
      | some bs, some be => workTime - ((be : ℚ) - (bs : ℚ)) / (1000 * 60 * 60)
      | _, _ => workTime
    max 0 workTime
  | _, _ => 0

/-- Reference definition written from the spec's words (§4.1): result `0`
when either work endpoint is absent; otherwise `raw` = work span in hours,
minus `breakDuration` exactly when both break endpoints are present (a break
with one endpoint is ignored entirely), the final result clamped to a
minimum of `0`. -/
def computeWorkedHoursSpec (work brk : TimeInterval) : ℚ :=
  match work.start, work.stop with
  | some s, some e =>
    let raw : ℚ := ((e : ℚ) - (s : ℚ)) / 3600000
    let breakDuration : ℚ :=
      match brk.start, brk.stop with
      | some bs, some be => ((be : ℚ) - (bs : ℚ)) / 3600000
      | _, _ => 0
    max 0 (raw - breakDuration)
  | _, _ => 0

/-!
### Leave-day computation

From `src/unnamed/part_001`, `createLeaveRequestMutation` (line 99):
`const daysRequested = differenceInDays(data.end_date, data.start_date) + 1;`

`date-fns`'s `differenceInDays` returns the number of full day periods
between the two instants, signed.  With both instants in a fixed-offset
timeline (no DST in the model) that is the floor of the millisecond
difference divided by one day, applied to the absolute difference and
re-signed.
-/

def msPerDay : Int := 86400000

/-- Model of `date-fns` `differenceInDays dateLeft dateRight`: the signed
number of full day periods from `dateRight` to `dateLeft`. -/
def differenceInDays (dateLeft dateRight : Int) : Int :=
  if dateRight ≤ dateLeft then (dateLeft - dateRight).fdiv msPerDay
  else -((dateRight - dateLeft).fdiv msPerDay)

/-- Days requested for a leave range, as computed by
`createLeaveRequestMutation`. -/
def computeDaysRequested (start_date end_date : Int) : Int :=
  differenceInDays end_date start_date + 1

/-- Days since 1970-01-01 of a proleptic-Gregorian calendar date
(standard civil-from-days inverse); used to name concrete dates such as
2024-01-10 in the examples. -/
def daysFromCivil (y m d : Int) : Int :=
  let y' := if m ≤ 2 then y - 1 else y
  let era := y'.fdiv 400
  let yoe := y' - era * 400
  let mp := (m + 9).emod 12
  let doy := (153 * mp + 2).fdiv 5 + d - 1
  let doe := yoe * 365 + yoe.fdiv 4 - yoe.fdiv 100 + doy
  era * 146097 + doe - 719468

/-- The instant (ms since epoch) at midnight of a civil date, which is what
the calendar picker hands to `createLeaveRequestMutation`. -/
def mkDateMs (y m d : Int) : Int := daysFromCivil y m d * msPerDay

/-!
### Sequential ID Allocator

From `src/supabase/migrations/20250720183346-....sql`, function
`generate_user_id(role_name VARCHAR)`:

```
CASE LOWER(role_name)
  WHEN 'admin' THEN prefix := 'ADM'; WHEN 'hr' THEN prefix := 'HR';
  WHEN 'manager' THEN prefix := 'MGR'; WHEN 'employee' THEN prefix := 'EMP';
  ELSE prefix := 'USR'; END CASE;
SELECT COALESCE(MAX(CAST(SUBSTRING(user_id_login FROM LENGTH(prefix) + 1) AS INTEGER)), 0) + 1
  INTO counter FROM public.users WHERE user_id_login LIKE prefix || '%';
new_user_id := prefix || LPAD(counter::TEXT, 3, '0');
```

The embedding models PostgreSQL semantics of the pieces: `LIKE pfx || '%'`
is a character-prefix test, `SUBSTRING(s FROM n)` drops the first `n - 1`
characters, `CAST(text AS INTEGER)` trims whitespace, accepts an optional
sign followed by one or more digits (raising `invalid input syntax for
type integer` otherwise) and then requires the value to fit PostgreSQL's
32-bit `INTEGER` (raising `value out of range for type integer`
otherwise), either error aborting the whole query; `LPAD(s, 3, c)`
left-pads to width 3 and truncates on the right when `s` is longer than 3,
and `COALESCE(MAX(..), 0)` is the maximum of the cast values, or 0 when no
row matches.  The erroring `CAST` is modelled by `Except`: the allocator
errors exactly when some matching id has a suffix that does not cast,
reporting a syntax error when some suffix is non-numeric and a range error
when all suffixes are numeric but one exceeds the 32-bit range (the SQL
reports whichever failing row it reaches first; the model fixes that
choice).
-/

/-- SQL `LOWER`: character-wise ASCII lowercasing. -/
def strToLower (s : String) : String := ⟨s.data.map Char.toLower⟩

/-- PostgreSQL `CASE LOWER(role_name) ... END CASE` choosing the id letter
code (`prefix` in the source). -/
def rolePfx (role_name : String) : String :=
  match strToLower role_name with
  | "admin" => "ADM"
  | "hr" => "HR"
  | "manager" => "MGR"
  | "employee" => "EMP"
  | _ => "USR"

/-- `user_id_login LIKE pfx || '%'`: the id begins with the letter code. -/
def likeMatches (pfx uid : String) : Bool := pfx.data.isPrefixOf uid.data

/-- `SUBSTRING(uid FROM LENGTH(pfx) + 1)`: everything after the code. -/
def suffixFrom (pfx uid : String) : String := ⟨uid.data.drop pfx.data.length⟩

/-- Whitespace trimming done by PostgreSQL text-to-integer casts. -/
def trimChars (l : List Char) : List Char :=
  ((l.dropWhile Char.isWhitespace).reverse.dropWhile Char.isWhitespace).reverse

/-- Base-10 value of a digit string (most significant first). -/
def digitsVal (l : List Char) : Nat :=
  l.foldl (fun a c => a * 10 + (c.toNat - 48)) 0

/-- A nonempty all-digit string parses; anything else does not. -/
def parseDigits (l : List Char) : Option Nat :=
  if l ≠ [] ∧ l.all Char.isDigit then some (digitsVal l) else none

/-- Signed-integer syntax: an optional sign followed by digits. -/
def pgParseChars (l : List Char) : Option Int :=
  match l with
  | [] => none
  | c :: cs =>
    if c = '-' then Option.map (fun n : Nat => -(n : Int)) (parseDigits cs)
    else if c = '+' then Option.map (fun n : Nat => (n : Int)) (parseDigits cs)
    else Option.map (fun n : Nat => (n : Int)) (parseDigits (c :: cs))

/-- PostgreSQL's `INTEGER` is 32-bit: a syntactically valid value must lie
in [-2147483648, 2147483647] or the cast raises a range error. -/
def int4Check (o : Option Int) : Except String Int :=
  match o with
  | none => Except.error "invalid input syntax for type integer"
  | some n =>
    if n < -2147483648 ∨ 2147483647 < n then
      Except.error "value out of range for type integer"
    else Except.ok n

/-- PostgreSQL `CAST(s AS INTEGER)`: trimmed, optionally signed digits
whose value fits the 32-bit `INTEGER` type, with PostgreSQL's two error
conditions. -/
def pgCastInt (s : String) : Except String Int :=
  int4Check (pgParseChars (trimChars s.data))

def exceptToOption (e : Except String Int) : Option Int :=
  match e with
  | Except.ok n => some n
  | Except.error _ => none

/-- The successfully-cast value of `CAST(s AS INTEGER)`, when there is
one. -/
def pgParseInt (s : String) : Option Int := exceptToOption (pgCastInt s)

/-- Decimal digits of `n`, most significant first; the fuel argument makes
the recursion structural. -/
def natToCharsAux : Nat → Nat → List Char
  | 0, _ => []
  | fuel + 1, n =>
    if n < 10 then [Nat.digitChar n]
    else natToCharsAux fuel (n / 10) ++ [Nat.digitChar (n % 10)]

/-- Decimal digits of `n`, most significant first. -/
def natToChars (n : Nat) : List Char := natToCharsAux (n + 1) n

/-- PostgreSQL `i::TEXT` for an integer. -/
def intToText (i : Int) : String :=
  if i < 0 then ⟨'-' :: natToChars i.natAbs⟩ else ⟨natToChars i.natAbs⟩

/-- PostgreSQL `LPAD(s, w, fill)`: pad on the left to width `w`, or
truncate on the right when `s` is longer than `w`. -/
def lpad (s : String) (w : Nat) (fill : Char) : String :=
  if w ≤ s.data.length then ⟨s.data.take w⟩
  else ⟨List.replicate (w - s.data.length) fill ++ s.data⟩

/-- `COALESCE(MAX(l), 0)`: maximum of the values, 0 when there are none. -/
def maxOr0 : List Int → Int
  | [] => 0
  | v :: vs => vs.foldl max v

/-- `generate_user_id` itself.  The SQL raises an error as soon as one
matching row's suffix fails the integer cast — `invalid input syntax for
type integer` for a non-numeric suffix, `value out of range for type
integer` for a numeric suffix beyond 32 bits.  `counter` is itself an
`INTEGER`, so the `+ 1` raises `integer out of range` when the maximum
suffix is 2147483647.  Otherwise the function formats `max + 1`. -/
def allocateLoginId (role_name : String) (existing_ids : List String) :
    Except String String :=
  let pfx := rolePfx role_name
  let matching := existing_ids.filter (fun uid => likeMatches pfx uid)
  if matching.all (fun uid => (pgParseChars (trimChars (suffixFrom pfx uid).data)).isSome) then
    if matching.all (fun uid => (pgParseInt (suffixFrom pfx uid)).isSome) then
      let counter := maxOr0 (matching.filterMap (fun uid => pgParseInt (suffixFrom pfx uid))) + 1
      if counter < -2147483648 ∨ 2147483647 < counter then
        Except.error "integer out of range"
      else
        Except.ok (pfx ++ lpad (intToText counter) 3 '0')
    else Except.error "value out of range for type integer"
  else Except.error "invalid input syntax for type integer"

/-- Reference prefix table written from the spec's words (§4.2 step 1):
`admin→ADM, hr→HR, manager→MGR, employee→EMP`, case-insensitively, with
fallback `USR` for any other role name. -/
def specRolePfx (role_name : String) : String :=
  if strToLower role_name = "admin" then "ADM"
  else if strToLower role_name = "hr" then "HR"
  else if strToLower role_name = "manager" then "MGR"
  else if strToLower role_name = "employee" then "EMP"
  else "USR"

/-- Reference allocator written from the spec's words (§4.2 steps 2-4):
filter the ids beginning with the chosen code, parse each numeric suffix,
take the maximum (0 when none match), add 1, and format at fixed width 3
(the spec states the width stays fixed at 3 digits). -/
def allocateLoginIdSpec (role_name : String) (existing_ids : List String) : String :=
  let pfx := specRolePfx role_name
  let suffixVals := (existing_ids.filter (fun uid => likeMatches pfx uid)).filterMap
    (fun uid => pgParseInt (suffixFrom pfx uid))
  pfx ++ lpad (intToText (maxOr0 suffixVals + 1)) 3 '0'

/-!
### Leave-request lifecycle

From `src/unnamed/part_001`: `createLeaveRequestMutation` (lines 97-111)
inserts the form fields plus the computed `days_requested`; the `status`
column takes the database default `'pending'`
(`src/unnamed/part_007` line 54).  `updateLeaveRequestMutation`
(lines 124-142) updates one request by id with a payload that always
carries `status`, `approved_by := currentUser?.id` and
`approved_at := now`, and carries `rejection_reason` only when the passed
`rejectionReason` is truthy (present and nonempty).  The page renders the
Approve/Reject buttons only for a request whose status is `"pending"`
(line 428); `handleApprove` mutates with status `"approved"`;
`handleReject` prompts for a reason and mutates with status `"rejected"`
only when the reason is nonempty (lines 187-199).
-/

structure LeaveRequestForm where
  user_id : String
  leave_type : String
  start_date : Int
  end_date : Int
  reason : String
deriving Repr, DecidableEq

structure LeaveRequest where
  user_id : String
  leave_type : String
  start_date : Int
  end_date : Int
  days_requested : Int
  reason : String
  status : String
  approved_by : Option String
  approved_at : Option Int
  rejection_reason : Option String
deriving Repr, DecidableEq

/-- `createLeaveRequestMutation`: row inserted for a submitted form. -/
def createLeaveRequest (f : LeaveRequestForm) : LeaveRequest :=
  { user_id := f.user_id
    leave_type := f.leave_type
    start_date := f.start_date
    end_date := f.end_date
    days_requested := computeDaysRequested f.start_date f.end_date
    reason := f.reason
    status := "pending"
    approved_by := none
    approved_at := none
    rejection_reason := none }

/-- Field-level effect of `updateLeaveRequestMutation` on the row it
targets: the payload always carries `status`, `approved_by` and
`approved_at`; `rejection_reason` is written only when the argument is
truthy (present and nonempty), and an omitted column keeps its stored
value. -/
def applyLeaveUpdate (r : LeaveRequest) (status : String)
    (currentUser : Option String) (now : Int) (rejectionReason : Option String) :
    LeaveRequest :=
  { r with
    status := status
    approved_by := currentUser
    approved_at := some now
    rejection_reason :=
      match rejectionReason with
      | some s => if s ≠ "" then some s else r.rejection_reason
      | none => r.rejection_reason }

/-- The status-changing operations the Leave Requests page offers. -/
inductive LeaveOp where
  | approve (approver : String) (now : Int)
  | reject (approver : String) (now : Int) (reason : String)
deriving Repr, DecidableEq

/-- One user-visible approve/reject step on a request: the buttons exist
only while the request is `"pending"`, and Reject fires only with a
nonempty prompt reason. -/
def leaveStep (r : LeaveRequest) : LeaveOp → Option LeaveRequest
  | .approve u t =>
    if r.status = "pending" then some (applyLeaveUpdate r "approved" (some u) t none)
    else none
  | .reject u t reason =>
    if r.status = "pending" then
      if reason ≠ "" then some (applyLeaveUpdate r "rejected" (some u) t (some reason))
      else none
    else none

/-!
### Attendance upsert

`createAttendanceMutation` persists with
`supabase.from("attendance").upsert(payload)` (Dashboard.tsx line 946)
where the payload carries no `id`.  A supabase-js `upsert` with no
`onConflict` option resolves conflicts on the primary key, here `id`; the
inserted row gets a freshly generated uuid, so the primary key never
conflicts and the statement behaves as a plain insert, which the
`UNIQUE(user_id, date)` constraint (`src/unnamed/part_007` line 43)
rejects when a row for the same user and date already exists.
`upsertAttendanceByUserDate` is the operation the spec describes
(upsert keyed on `(user, date)`, replacing the record wholesale).
-/

structure AttendanceInsert where
  user_id : String
  date : String
  clock_in : Option Int
  clock_out : Option Int
  break_start : Option Int
  break_end : Option Int
  total_hours : ℚ
  status : String
  notes : String
deriving Repr, DecidableEq

structure AttendanceRow where
  id : Nat
  payload : AttendanceInsert
deriving Repr, DecidableEq

/-- The source's call: conflict target is the primary key `id`; `freshId`
is the uuid generated for the incoming row and is assumed fresh. -/
def upsertAttendance (table : List AttendanceRow) (freshId : Nat)
    (v : AttendanceInsert) : Except String (List AttendanceRow) :=
  if table.any (fun r => r.id = freshId) then
    Except.ok (table.map (fun r => if r.id = freshId then { id := r.id, payload := v } else r))
  else if table.any (fun r => r.payload.user_id = v.user_id ∧ r.payload.date = v.date) then
    Except.error "duplicate key value violates unique constraint"
  else Except.ok (table ++ [{ id := freshId, payload := v }])

/-- Modelled from the spec: the upsert the spec states the lifecycle uses,
keyed on `(user, date)`, replacing the stored record wholesale on
resubmission and inserting otherwise. -/
def upsertAttendanceByUserDate (table : List AttendanceRow) (freshId : Nat)
    (v : AttendanceInsert) : List AttendanceRow :=
  if table.any (fun r => r.payload.user_id = v.user_id ∧ r.payload.date = v.date) then
    table.map (fun r =>
      if r.payload.user_id = v.user_id ∧ r.payload.date = v.date then
        { id := r.id, payload := v }
      else r)
  else table ++ [{ id := freshId, payload := v }]

/-!
### User update

From `src/src/components/UserForm.tsx`, `handleSubmit`, update path
(lines 129-163): the update payload always carries the six profile fields;
when the form's `user_id_login` is truthy (nonempty) and differs from the
target's current one, a duplicate check looks for another user holding
that login (erroring when found) and otherwise the new `user_id_login` is
included in the update payload.
-/

structure UserRow where
  id : String
  first_name : String
  last_name : String
  email : String
  role_id : String
  department : String
  status : String
  user_id_login : String
deriving Repr, DecidableEq

structure UserUpdateForm where
  first_name : String
  last_name : String
  email : String
  role_id : String
  department : String
  status : String
  user_id_login : String
deriving Repr, DecidableEq

/-- The six always-updated profile fields of the update payload. -/
def applyProfileFields (u : UserRow) (f : UserUpdateForm) : UserRow :=
  { u with first_name := f.first_name, last_name := f.last_name,
           email := f.email, role_id := f.role_id,
           department := f.department, status := f.status }

/-- `handleSubmit`'s update path applied to a users table. -/
def updateUserSubmit (users : List UserRow) (target : UserRow)
    (f : UserUpdateForm) : Except String (List UserRow) :=
  if f.user_id_login ≠ "" ∧ f.user_id_login ≠ target.user_id_login then
    if users.any (fun u => u.user_id_login = f.user_id_login ∧ u.id ≠ target.id) then
      Except.error "User ID already exists. Please choose a different one."
    else
      Except.ok (users.map (fun u =>
        if u.id = target.id then
          { applyProfileFields u f with user_id_login := f.user_id_login }
        else u))
  else
    Except.ok (users.map (fun u =>
      if u.id = target.id then applyProfileFields u f else u))

/-!
### Concrete sample data used by witnesses and counterexamples
-/

def samplePendingRequest : LeaveRequest :=
  { user_id := "u1", leave_type := "annual", start_date := mkDateMs 2024 1 10,
    end_date := mkDateMs 2024 1 12, days_requested := 3, reason := "trip",
    status := "pending", approved_by := none, approved_at := none,
    rejection_reason := none }

def sampleCancelledRequest : LeaveRequest :=
  { samplePendingRequest with status := "cancelled" }

def sampleAttendanceA : AttendanceInsert :=
  { user_id := "u1", date := "2024-01-10", clock_in := some 32400000,
    clock_out := some 61200000, break_start := none, break_end := none,
    total_hours := 8, status := "present", notes := "" }

def sampleAttendanceB : AttendanceInsert :=
  { sampleAttendanceA with
    clock_out := some 59400000
    total_hours := 15 / 2
    notes := "resubmitted" }

def sampleUserRow : UserRow :=
  { id := "u1", first_name := "Ana", last_name := "B", email := "ana@example.com",
    role_id := "r-emp", department := "Ops", status := "Active",
    user_id_login := "EMP001" }

def sampleUserForm : UserUpdateForm :=
  { first_name := "Ana", last_name := "B", email := "ana@example.com",
    role_id := "r-emp", department := "Ops", status := "Active",
    user_id_login := "EMP999" }

/-- C1: `computeWorkedHours` equals the reference definition for every pair
of optional intervals: absent work endpoint gives 0; the break is
subtracted exactly when both break endpoints are present and is otherwise
ignored entirely; the result is clamped to a minimum of 0. -/
theorem C1_computeWorkedHours_matches_spec (work brk : TimeInterval) :
    computeWorkedHours work brk = computeWorkedHoursSpec work brk := by
  rcases work with ⟨ws, we⟩
  rcases brk with ⟨bs, be⟩
  rcases ws with _ | s <;> rcases we with _ | e <;>
    rcases bs with _ | b1 <;> rcases be with _ | b2 <;>
      simp [computeWorkedHours, computeWorkedHoursSpec] <;> norm_num

/-- C1 has no hypotheses, but we record the spec's §8 concrete test values
for the source definition: 09:00-17:00 with a 12:00-12:30 break is 7.5
hours; with no break 8 hours; 09:00-10:00 with a 09:00-12:00 break clamps
to 0. -/
theorem computeWorkedHours_examples :
    computeWorkedHours ⟨some (9 * 3600000), some (17 * 3600000)⟩
        ⟨some (12 * 3600000), some (12 * 3600000 + 1800000)⟩ = 15 / 2 ∧
    computeWorkedHours ⟨some (9 * 3600000), some (17 * 3600000)⟩ ⟨none, none⟩ = 8 ∧
    computeWorkedHours ⟨some (9 * 3600000), some (10 * 3600000)⟩
        ⟨some (9 * 3600000), some (12 * 3600000)⟩ = 0 := by
  refine ⟨?_, ?_, ?_⟩ <;> norm_num [computeWorkedHours, max_def]

/-- C2: for every pair of instants with `end` not before `start`,
`computeDaysRequested` returns the inclusive day count
`floor((end - start) in days) + 1`; in particular it returns 1 on the
range 2024-01-10 .. 2024-01-10 and 3 on 2024-01-10 .. 2024-01-12. -/
theorem C2_computeDaysRequested_inclusive :
    (∀ s e : Int, s ≤ e →
      computeDaysRequested s e = (e - s).fdiv msPerDay + 1) ∧
    computeDaysRequested (mkDateMs 2024 1 10) (mkDateMs 2024 1 10) = 1 ∧
    computeDaysRequested (mkDateMs 2024 1 10) (mkDateMs 2024 1 12) = 3 := by
  refine ⟨?_, by decide, by decide⟩
  intro s e h
  simp [computeDaysRequested, differenceInDays, h]

/-- Witness for C2: the general clause applied to the concrete range
2024-01-10 .. 2024-01-12. -/
theorem C2_computeDaysRequested_inclusive_witness :
    computeDaysRequested (mkDateMs 2024 1 10) (mkDateMs 2024 1 12) =
      (mkDateMs 2024 1 12 - mkDateMs 2024 1 10).fdiv msPerDay + 1 :=
  C2_computeDaysRequested_inclusive.1 (mkDateMs 2024 1 10) (mkDateMs 2024 1 12)
    (by decide)

/-!
### Helper lemmas for the ID Allocator proofs
-/

theorem digitChar_toNat_sub (k : Nat) (h : k < 10) : (Nat.digitChar k).toNat - 48 = k := by
  interval_cases k <;> decide

theorem digitChar_isDigit (k : Nat) (h : k < 10) : (Nat.digitChar k).isDigit = true := by
  interval_cases k <;> decide

theorem natToCharsAux_spec : ∀ fuel n, n < fuel →
    natToCharsAux fuel n ≠ [] ∧
    (natToCharsAux fuel n).all Char.isDigit = true ∧
    digitsVal (natToCharsAux fuel n) = n := by
  intro fuel
  induction fuel with
  | zero => intro n h; omega
  | succ fuel ih =>
    intro n h
    by_cases h10 : n < 10
    · refine ⟨by simp [natToCharsAux, h10], ?_, ?_⟩
      · simp [natToCharsAux, h10, digitChar_isDigit n h10]
      · simp [natToCharsAux, h10, digitsVal, digitChar_toNat_sub n h10]
    · have hd : n / 10 < fuel := by
        have : n / 10 < n := Nat.div_lt_self (by omega) (by omega)
        omega
      obtain ⟨hne, hall, hval⟩ := ih (n / 10) hd
      refine ⟨by simp [natToCharsAux, h10], ?_, ?_⟩
      · simp [natToCharsAux, h10, List.all_append, hall,
          digitChar_isDigit (n % 10) (Nat.mod_lt _ (by omega))]
      · have happ : digitsVal (natToCharsAux fuel (n / 10) ++ [Nat.digitChar (n % 10)]) =
            digitsVal (natToCharsAux fuel (n / 10)) * 10 + ((Nat.digitChar (n % 10)).toNat - 48) := by
          simp [digitsVal, List.foldl_append]
        simp only [natToCharsAux, if_neg h10, happ, hval,
          digitChar_toNat_sub (n % 10) (Nat.mod_lt _ (by omega))]
        omega

theorem natToCharsAux_length : ∀ fuel k n, n < fuel → n < 10 ^ k → 1 ≤ k →
    (natToCharsAux fuel n).length ≤ k := by
  intro fuel
  induction fuel with
  | zero => intro k n h; omega
  | succ fuel ih =>
    intro k n hf hp hk
    by_cases h10 : n < 10
    · simpa [natToCharsAux, h10] using hk
    · have hk2 : 2 ≤ k := by
        rcases Nat.lt_or_ge k 2 with hlt | hge
        · have hk1 : k = 1 := by omega
          subst hk1
          simp at hp
          omega
        · exact hge
      have hd : n / 10 < fuel := by
        have : n / 10 < n := Nat.div_lt_self (by omega) (by omega)
        omega
      have hp2 : n / 10 < 10 ^ (k - 1) := by
        have hpow : 10 ^ (k - 1) * 10 = 10 ^ k := by
          rw [← pow_succ]
          congr 1
          omega
        have h1 : n < 10 ^ (k - 1) * 10 := by rw [hpow]; exact hp
        exact (Nat.div_lt_iff_lt_mul (by omega)).mpr h1
      have := ih (k - 1) (n / 10) hd hp2 (by omega)
      simp only [natToCharsAux, if_neg h10, List.length_append, List.length_singleton]
      omega

theorem dropWhile_of_forall_neg {p : Char → Bool} (l : List Char)
    (h : ∀ c ∈ l, p c = false) : l.dropWhile p = l := by
  cases l with
  | nil => rfl
  | cons a as => exact List.dropWhile_cons_of_neg (by simp [h a (List.mem_cons_self a as)])

theorem trimChars_of_no_ws (l : List Char) (h : ∀ c ∈ l, c.isWhitespace = false) :
    trimChars l = l := by
  unfold trimChars
  rw [dropWhile_of_forall_neg l h,
    dropWhile_of_forall_neg l.reverse (fun c hc => h c (List.mem_reverse.mp hc)),
    List.reverse_reverse]

theorem isDigit_not_ws (c : Char) (h : c.isDigit = true) : c.isWhitespace = false := by
  cases hx : c.isWhitespace
  · rfl
  · exfalso
    simp [Char.isWhitespace] at hx
    rcases hx with ((h1 | h1) | h1) | h1 <;> subst h1 <;> exact absurd h (by decide)

theorem isDigit_ne_dash (c : Char) (h : c.isDigit = true) : ¬(c = '-') := by
  intro he; subst he; exact absurd h (by decide)

theorem isDigit_ne_plus (c : Char) (h : c.isDigit = true) : ¬(c = '+') := by
  intro he; subst he; exact absurd h (by decide)

theorem foldl_digits_replicate_zero : ∀ k : Nat,
    List.foldl (fun a c => a * 10 + (c.toNat - 48)) 0 (List.replicate k '0') = 0 := by
  intro k
  induction k with
  | zero => rfl
  | succ k ih =>
    have h0 : (0 * 10 + ('0'.toNat - 48)) = 0 := by decide
    simp only [List.replicate_succ, List.foldl_cons, h0]
    exact ih

theorem digitsVal_replicate_zero_append (k : Nat) (l : List Char) :
    digitsVal (List.replicate k '0' ++ l) = digitsVal l := by
  unfold digitsVal
  rw [List.foldl_append, foldl_digits_replicate_zero]

theorem lpad_data_of_le (l : List Char) (h : l.length ≤ 3) :
    (lpad ⟨l⟩ 3 '0').data = List.replicate (3 - l.length) '0' ++ l := by
  unfold lpad
  by_cases h3 : 3 ≤ l.length
  · have hlen : l.length = 3 := le_antisymm h h3
    rw [if_pos (by simpa using h3)]
    show l.take 3 = List.replicate (3 - l.length) '0' ++ l
    rw [hlen, ← hlen, List.take_length]
    simp
  · rw [if_neg (by simpa using h3)]

theorem strData_append (p q : String) : (p ++ q).data = p.data ++ q.data := rfl

theorem isPrefixOf_append_self (p r : List Char) : p.isPrefixOf (p ++ r) = true := by
  induction p with
  | nil => simp [List.isPrefixOf]
  | cons a as ih => simp [List.isPrefixOf, ih]

theorem pgParseChars_trim_lpad (c : Nat) (hc : c ≤ 999) :
    pgParseChars (trimChars (lpad ⟨natToChars c⟩ 3 '0').data) = some (c : Int) := by
  obtain ⟨hne0, hall0, hval0⟩ := natToCharsAux_spec (c + 1) c (by omega)
  have hne : natToChars c ≠ [] := hne0
  have hall : (natToChars c).all Char.isDigit = true := hall0
  have hval : digitsVal (natToChars c) = c := hval0
  have hlen : (natToChars c).length ≤ 3 := by
    refine natToCharsAux_length (c + 1) 3 c (by omega) ?_ (by omega)
    have : (10 : Nat) ^ 3 = 1000 := by norm_num
    omega
  have hdata := lpad_data_of_le (natToChars c) hlen
  have hnoWs : ∀ ch ∈ List.replicate (3 - (natToChars c).length) '0' ++ natToChars c,
      ch.isWhitespace = false := by
    intro ch hch
    rcases List.mem_append.mp hch with hch | hch
    · have h0 : ch = '0' := List.eq_of_mem_replicate hch
      subst h0; decide
    · exact isDigit_not_ws ch (List.all_eq_true.mp hall ch hch)
  have hne2 : List.replicate (3 - (natToChars c).length) '0' ++ natToChars c ≠ [] := by
    intro hcontra
    exact hne (List.append_eq_nil.mp hcontra).2
  obtain ⟨c0, cs, hcons⟩ := List.exists_cons_of_ne_nil hne2
  have hc0digit : c0.isDigit = true := by
    have hmem : c0 ∈ List.replicate (3 - (natToChars c).length) '0' ++ natToChars c := by
      rw [hcons]; exact List.mem_cons_self _ _
    rcases List.mem_append.mp hmem with h2 | h2
    · have h0 : c0 = '0' := List.eq_of_mem_replicate h2
      subst h0; decide
    · exact List.all_eq_true.mp hall c0 h2
  rw [hdata, trimChars_of_no_ws _ hnoWs, hcons]
  simp only [pgParseChars]
  rw [if_neg (isDigit_ne_dash c0 hc0digit), if_neg (isDigit_ne_plus c0 hc0digit)]
  rw [← hcons]
  unfold parseDigits
  have hcondAll : (List.replicate (3 - (natToChars c).length) '0' ++ natToChars c).all
      Char.isDigit = true := by
    have hrep : (List.replicate (3 - (natToChars c).length) '0').all Char.isDigit = true := by
      rw [List.all_eq_true]
      intro x hx
      have h0 : x = '0' := List.eq_of_mem_replicate hx
      subst h0; decide
    rw [List.all_append, hrep, hall]
    rfl
  rw [if_pos ⟨hne2, hcondAll⟩]
  have hval2 : digitsVal (List.replicate (3 - (natToChars c).length) '0' ++ natToChars c) = c := by
    rw [digitsVal_replicate_zero_append]
    exact hval
  rw [hval2]
  rfl

theorem pgParseInt_lpad_natToChars (c : Nat) (hc : c ≤ 999) :
    pgParseInt (lpad ⟨natToChars c⟩ 3 '0') = some (c : Int) := by
  unfold pgParseInt pgCastInt
  rw [pgParseChars_trim_lpad c hc]
  simp only [int4Check]
  rw [if_neg (by omega : ¬(((c : Nat) : Int) < -2147483648 ∨ 2147483647 < ((c : Nat) : Int)))]
  rfl

theorem syntaxOk_of_parse (s : String) (h : (pgParseInt s).isSome = true) :
    (pgParseChars (trimChars s.data)).isSome = true := by
  unfold pgParseInt pgCastInt at h
  cases hx : pgParseChars (trimChars s.data) with
  | none =>
    rw [hx] at h
    simp [int4Check, exceptToOption] at h
  | some n => rfl

theorem pgParseInt_range (s : String) (n : Int) (h : pgParseInt s = some n) :
    -2147483648 ≤ n ∧ n ≤ 2147483647 := by
  unfold pgParseInt pgCastInt at h
  cases hx : pgParseChars (trimChars s.data) with
  | none =>
    rw [hx] at h
    simp [int4Check, exceptToOption] at h
  | some m =>
    rw [hx] at h
    simp only [int4Check] at h
    by_cases hr : m < -2147483648 ∨ 2147483647 < m
    · rw [if_pos hr] at h
      simp [exceptToOption] at h
    · rw [if_neg hr] at h
      simp only [exceptToOption] at h
      injection h with he
      subst he
      omega

theorem foldl_max_init_le (vs : List Int) : ∀ a : Int, a ≤ vs.foldl max a := by
  induction vs with
  | nil => intro a; simp
  | cons v vs ih =>
    intro a
    rw [List.foldl_cons]
    exact le_trans (le_max_left a v) (ih (max a v))

theorem mem_le_foldl_max (vs : List Int) : ∀ (a x : Int), x ∈ vs → x ≤ vs.foldl max a := by
  induction vs with
  | nil => intro a x hx; simp at hx
  | cons v vs ih =>
    intro a x hx
    rw [List.foldl_cons]
    rcases List.mem_cons.mp hx with rfl | hx
    · exact le_trans (le_max_right a x) (foldl_max_init_le vs (max a x))
    · exact ih (max a v) x hx

theorem foldl_max_le (vs : List Int) : ∀ (a b : Int), a ≤ b → (∀ x ∈ vs, x ≤ b) →
    vs.foldl max a ≤ b := by
  induction vs with
  | nil => intro a b h _; simpa using h
  | cons v vs ih =>
    intro a b ha hall
    rw [List.foldl_cons]
    exact ih (max a v) b (max_le ha (hall v (by simp))) (fun x hx => hall x (by simp [hx]))

theorem le_maxOr0 {l : List Int} {x : Int} (h : x ∈ l) : x ≤ maxOr0 l := by
  cases l with
  | nil => simp at h
  | cons v vs =>
    show x ≤ vs.foldl max v
    rcases List.mem_cons.mp h with rfl | h
    · exact foldl_max_init_le vs x
    · exact mem_le_foldl_max vs v x h

theorem maxOr0_nonneg (l : List Int) (h : ∀ x ∈ l, 0 ≤ x) : 0 ≤ maxOr0 l := by
  cases l with
  | nil => simp [maxOr0]
  | cons v vs => exact le_trans (h v (by simp)) (foldl_max_init_le vs v)

theorem maxOr0_le (l : List Int) (b : Int) (h : ∀ x ∈ l, x ≤ b) (hb : 0 ≤ b) :
    maxOr0 l ≤ b := by
  cases l with
  | nil => simpa [maxOr0] using hb
  | cons v vs => exact foldl_max_le vs v b (h v (by simp)) (fun x hx => h x (by simp [hx]))

theorem maxOr0_lower (l : List Int) (b : Int) (hb : b ≤ 0) (h : ∀ x ∈ l, b ≤ x) :
    b ≤ maxOr0 l := by
  cases l with
  | nil => simpa [maxOr0] using hb
  | cons v vs => exact le_trans (h v (by simp)) (foldl_max_init_le vs v)

theorem rolePfx_eq_specRolePfx (r : String) : rolePfx r = specRolePfx r := by
  unfold rolePfx specRolePfx
  split <;> simp_all

theorem allocAll_of_parse (role_name : String) (existing_ids : List String)
    (h : ∀ uid ∈ existing_ids, likeMatches (rolePfx role_name) uid = true →
      (pgParseInt (suffixFrom (rolePfx role_name) uid)).isSome = true) :
    (existing_ids.filter (fun uid => likeMatches (rolePfx role_name) uid)).all
      (fun uid => (pgParseInt (suffixFrom (rolePfx role_name) uid)).isSome) = true := by
  rw [List.all_eq_true]
  intro uid huid
  obtain ⟨hin, hlike⟩ := List.mem_filter.mp huid
  exact h uid hin hlike

theorem allocAllSyntax_of_parse (role_name : String) (existing_ids : List String)
    (h : ∀ uid ∈ existing_ids, likeMatches (rolePfx role_name) uid = true →
      (pgParseInt (suffixFrom (rolePfx role_name) uid)).isSome = true) :
    (existing_ids.filter (fun uid => likeMatches (rolePfx role_name) uid)).all
      (fun uid =>
        (pgParseChars (trimChars (suffixFrom (rolePfx role_name) uid).data)).isSome) = true := by
  rw [List.all_eq_true]
  intro uid huid
  obtain ⟨hin, hlike⟩ := List.mem_filter.mp huid
  exact syntaxOk_of_parse _ (h uid hin hlike)

theorem allocateLoginId_ok_of_parse (role_name : String) (existing_ids : List String)
    (h : ∀ uid ∈ existing_ids, likeMatches (rolePfx role_name) uid = true →
      (pgParseInt (suffixFrom (rolePfx role_name) uid)).isSome = true ∧
      (pgParseInt (suffixFrom (rolePfx role_name) uid)).getD 0 ≤ 2147483646) :
    allocateLoginId role_name existing_ids =
      Except.ok (allocateLoginIdSpec role_name existing_ids) := by
  have h1 : ∀ uid ∈ existing_ids, likeMatches (rolePfx role_name) uid = true →
      (pgParseInt (suffixFrom (rolePfx role_name) uid)).isSome = true :=
    fun uid hin hlike => (h uid hin hlike).1
  have hvb : ∀ n ∈ (existing_ids.filter
        (fun uid => likeMatches (rolePfx role_name) uid)).filterMap
        (fun uid => pgParseInt (suffixFrom (rolePfx role_name) uid)),
      -2147483648 ≤ n ∧ n ≤ 2147483646 := by
    intro n hn
    obtain ⟨uid, huid, hpu⟩ := List.mem_filterMap.mp hn
    obtain ⟨hin, hlike⟩ := List.mem_filter.mp huid
    obtain ⟨hsome, hle⟩ := h uid hin hlike
    rw [hpu] at hle
    exact ⟨(pgParseInt_range _ n hpu).1, by simpa using hle⟩
  have hup : maxOr0 ((existing_ids.filter
        (fun uid => likeMatches (rolePfx role_name) uid)).filterMap
        (fun uid => pgParseInt (suffixFrom (rolePfx role_name) uid))) ≤ 2147483646 :=
    maxOr0_le _ 2147483646 (fun n hn => (hvb n hn).2) (by norm_num)
  have hlow : -2147483648 ≤ maxOr0 ((existing_ids.filter
        (fun uid => likeMatches (rolePfx role_name) uid)).filterMap
        (fun uid => pgParseInt (suffixFrom (rolePfx role_name) uid))) :=
    maxOr0_lower _ _ (by norm_num) (fun n hn => (hvb n hn).1)
  simp only [allocateLoginId, allocateLoginIdSpec, ← rolePfx_eq_specRolePfx]
  rw [if_pos (allocAllSyntax_of_parse role_name existing_ids h1),
    if_pos (allocAll_of_parse role_name existing_ids h1),
    if_neg (by omega : ¬(maxOr0 ((existing_ids.filter
        (fun uid => likeMatches (rolePfx role_name) uid)).filterMap
        (fun uid => pgParseInt (suffixFrom (rolePfx role_name) uid))) + 1 < -2147483648 ∨
      2147483647 < maxOr0 ((existing_ids.filter
        (fun uid => likeMatches (rolePfx role_name) uid)).filterMap
        (fun uid => pgParseInt (suffixFrom (rolePfx role_name) uid))) + 1))]

theorem allocateLoginId_fresh (role_name : String) (existing_ids : List String)
    (h : ∀ uid ∈ existing_ids, likeMatches (rolePfx role_name) uid = true →
      (pgParseInt (suffixFrom (rolePfx role_name) uid)).isSome = true ∧
      0 ≤ (pgParseInt (suffixFrom (rolePfx role_name) uid)).getD 0 ∧
      (pgParseInt (suffixFrom (rolePfx role_name) uid)).getD 0 ≤ 998) :
    ∀ s, allocateLoginId role_name existing_ids = Except.ok s → s ∉ existing_ids := by
  intro s hs hmem
  have hparse : ∀ uid ∈ existing_ids, likeMatches (rolePfx role_name) uid = true →
      (pgParseInt (suffixFrom (rolePfx role_name) uid)).isSome = true :=
    fun uid hin hlike => (h uid hin hlike).1
  simp only [allocateLoginId] at hs
  have hbounds : ∀ n ∈ (existing_ids.filter
        (fun uid => likeMatches (rolePfx role_name) uid)).filterMap
        (fun uid => pgParseInt (suffixFrom (rolePfx role_name) uid)),
      0 ≤ n ∧ n ≤ 998 := by
    intro n hn
    obtain ⟨uid, huid, hpu⟩ := List.mem_filterMap.mp hn
    obtain ⟨hin, hlike⟩ := List.mem_filter.mp huid
    obtain ⟨hsome, h0, h9⟩ := h uid hin hlike
    rw [hpu] at h0 h9
    exact ⟨by simpa using h0, by simpa using h9⟩
  have hm0 : 0 ≤ maxOr0 ((existing_ids.filter
        (fun uid => likeMatches (rolePfx role_name) uid)).filterMap
        (fun uid => pgParseInt (suffixFrom (rolePfx role_name) uid))) :=
    maxOr0_nonneg _ (fun n hn => (hbounds n hn).1)
  have hm9 : maxOr0 ((existing_ids.filter
        (fun uid => likeMatches (rolePfx role_name) uid)).filterMap
        (fun uid => pgParseInt (suffixFrom (rolePfx role_name) uid))) ≤ 998 :=
    maxOr0_le _ 998 (fun n hn => (hbounds n hn).2) (by norm_num)
  rw [if_pos (allocAllSyntax_of_parse role_name existing_ids hparse),
    if_pos (allocAll_of_parse role_name existing_ids hparse),
    if_neg (by omega : ¬(maxOr0 ((existing_ids.filter
        (fun uid => likeMatches (rolePfx role_name) uid)).filterMap
        (fun uid => pgParseInt (suffixFrom (rolePfx role_name) uid))) + 1 < -2147483648 ∨
      2147483647 < maxOr0 ((existing_ids.filter
        (fun uid => likeMatches (rolePfx role_name) uid)).filterMap
        (fun uid => pgParseInt (suffixFrom (rolePfx role_name) uid))) + 1))] at hs
  injection hs with hseq
  subst hseq
  set pfx := rolePfx role_name with hpfxdef
  set vals := (existing_ids.filter (fun uid => likeMatches pfx uid)).filterMap
    (fun uid => pgParseInt (suffixFrom pfx uid)) with hvalsdef
  have hitt : intToText (maxOr0 vals + 1) = ⟨natToChars (maxOr0 vals + 1).natAbs⟩ := by
    unfold intToText
    rw [if_neg (by omega)]
  have hround : pgParseInt (lpad (intToText (maxOr0 vals + 1)) 3 '0') =
      some (maxOr0 vals + 1) := by
    rw [hitt, pgParseInt_lpad_natToChars (maxOr0 vals + 1).natAbs (by omega)]
    congr 1
    omega
  have hlike_s : likeMatches pfx (pfx ++ lpad (intToText (maxOr0 vals + 1)) 3 '0') = true := by
    unfold likeMatches
    rw [strData_append]
    exact isPrefixOf_append_self _ _
  have hsuf : suffixFrom pfx (pfx ++ lpad (intToText (maxOr0 vals + 1)) 3 '0') =
      lpad (intToText (maxOr0 vals + 1)) 3 '0' := by
    unfold suffixFrom
    rw [strData_append, List.drop_left]
  have hcmem : (maxOr0 vals + 1) ∈ vals :=
    List.mem_filterMap.mpr ⟨_, List.mem_filter.mpr ⟨hmem, hlike_s⟩, by rw [hsuf, hround]⟩
  have hle := le_maxOr0 hcmem
  omega

/-!
### Claims C3-C10
-/

/-- C3: `allocateLoginId` maps the role name case-insensitively through the
closed table admin→ADM, hr→HR, manager→MGR, employee→EMP with fallback USR,
takes the maximum integer suffix among the ids beginning with the chosen
code (0 when none match), adds 1, and formats the number at width 3 with
leading zeros — i.e. it agrees with the reference allocator written from
the spec's words whenever every matching suffix casts as a 32-bit integer
of value at most 2147483646 — the exact domain on which `generate_user_id`
raises no error: the claim's "maximum integer suffix" presupposes the
casts succeed, and the error paths (cast failures and INTEGER counter
overflow) are settled under C5; in particular it yields EMP003 and USR001
on the spec's two examples. -/
theorem C3_allocateLoginId_matches_table :
    (∀ (role_name : String) (existing_ids : List String),
      (∀ uid ∈ existing_ids, likeMatches (rolePfx role_name) uid = true →
        (pgParseInt (suffixFrom (rolePfx role_name) uid)).isSome = true ∧
        (pgParseInt (suffixFrom (rolePfx role_name) uid)).getD 0 ≤ 2147483646) →
      allocateLoginId role_name existing_ids =
        Except.ok (allocateLoginIdSpec role_name existing_ids)) ∧
    allocateLoginId "Employee" ["EMP001", "EMP002", "ADM001"] = Except.ok "EMP003" ∧
    allocateLoginId "unknown-role" [] = Except.ok "USR001" :=
  ⟨allocateLoginId_ok_of_parse, rfl, rfl⟩

/-- Witness for C3: the refinement clause applied to the spec's concrete
example, with the parse hypothesis discharged by evaluation. -/
theorem C3_allocateLoginId_matches_table_witness :
    allocateLoginId "Employee" ["EMP001", "EMP002", "ADM001"] =
      Except.ok (allocateLoginIdSpec "Employee" ["EMP001", "EMP002", "ADM001"]) :=
  C3_allocateLoginId_matches_table.1 "Employee" ["EMP001", "EMP002", "ADM001"] (by decide)

/-- Counterexample to C4 as stated: on the snapshot [EMP100, EMP1000] the
allocator computes max suffix 1000, counter 1001, and LPAD truncates
"1001" to "100", returning "EMP100", which is already present in the
snapshot. -/
theorem C4_fresh_counterexample :
    allocateLoginId "employee" ["EMP100", "EMP1000"] = Except.ok "EMP100" ∧
    "EMP100" ∈ ["EMP100", "EMP1000"] := ⟨rfl, by simp⟩

/-- C4 (amended): the allocator is deterministic for a fixed snapshot, and
the returned identifier is not in the snapshot provided every id beginning
with the chosen code has an integer suffix between 0 and 998 (so that the
fixed-width-3 `LPAD` does not truncate the incremented counter). -/
theorem C4_deterministic_and_fresh :
    ∀ (role_name : String) (existing_ids : List String),
      (∀ uid ∈ existing_ids, likeMatches (rolePfx role_name) uid = true →
        (pgParseInt (suffixFrom (rolePfx role_name) uid)).isSome = true ∧
        0 ≤ (pgParseInt (suffixFrom (rolePfx role_name) uid)).getD 0 ∧
        (pgParseInt (suffixFrom (rolePfx role_name) uid)).getD 0 ≤ 998) →
      allocateLoginId role_name existing_ids = allocateLoginId role_name existing_ids ∧
      ∀ s, allocateLoginId role_name existing_ids = Except.ok s → s ∉ existing_ids :=
  fun role_name existing_ids h =>
    ⟨rfl, allocateLoginId_fresh role_name existing_ids h⟩

/-- Witness for C4 (amended): on the spec's example snapshot the returned
identifier EMP003 is not among the existing ids. -/
theorem C4_deterministic_and_fresh_witness :
    "EMP003" ∉ ["EMP001", "EMP002", "ADM001"] :=
  (C4_deterministic_and_fresh "Employee" ["EMP001", "EMP002", "ADM001"]
    (by decide)).2 "EMP003" rfl

/-- Counterexample to C5 as stated: an existing id whose portion after the
chosen code is not a numeric string makes the SQL integer cast — and hence
the whole allocation — raise a syntax error instead of returning an id;
likewise a numeric suffix beyond the 32-bit INTEGER range raises a range
error, and a maximal in-range suffix overflows the INTEGER counter at
`+ 1`. -/
theorem C5_error_counterexample :
    allocateLoginId "employee" ["EMPabc"] =
      Except.error "invalid input syntax for type integer" ∧
    allocateLoginId "employee" ["EMP9999999999"] =
      Except.error "value out of range for type integer" ∧
    allocateLoginId "employee" ["EMP2147483647"] =
      Except.error "integer out of range" := ⟨rfl, rfl, rfl⟩

/-- C5 (amended): the allocation never fails — an unrecognized role name
degrades to the USR code rather than erroring — provided every existing id
beginning with the chosen code has an integer suffix that the 32-bit cast
accepts with value at most 2147483646 (so the INTEGER counter `max + 1`
does not overflow); a non-numeric suffix raises a syntax error, a numeric
suffix beyond the INTEGER range raises a range error, and a maximal
in-range suffix overflows the counter, each aborting the allocation. -/
theorem C5_total_on_integer_suffixes :
    ∀ (role_name : String) (existing_ids : List String),
      (∀ uid ∈ existing_ids, likeMatches (rolePfx role_name) uid = true →
        (pgParseInt (suffixFrom (rolePfx role_name) uid)).isSome = true ∧
        (pgParseInt (suffixFrom (rolePfx role_name) uid)).getD 0 ≤ 2147483646) →
      ∃ s, allocateLoginId role_name existing_ids = Except.ok s :=
  fun role_name existing_ids h =>
    ⟨allocateLoginIdSpec role_name existing_ids,
      allocateLoginId_ok_of_parse role_name existing_ids h⟩

/-- Witness for C5 (amended): the unrecognized role of the spec's example
allocates (namely USR001) rather than failing. -/
theorem C5_total_on_integer_suffixes_witness :
    ∃ s, allocateLoginId "unknown-role" [] = Except.ok s :=
  C5_total_on_integer_suffixes "unknown-role" [] (by decide)

/-- C6: every leave request is created in the pending state; a successful
approve/reject step applies only to a request that is still pending and
moves it to approved or rejected; and on a request that is already
approved, rejected, or cancelled no operation of the page fires, so the
transition happens exactly once and cancelled is terminal. -/
theorem C6_leave_request_lifecycle :
    (∀ f : LeaveRequestForm, (createLeaveRequest f).status = "pending") ∧
    (∀ (r : LeaveRequest) (op : LeaveOp) (r' : LeaveRequest),
      leaveStep r op = some r' →
      r.status = "pending" ∧ (r'.status = "approved" ∨ r'.status = "rejected")) ∧
    (∀ (r : LeaveRequest) (op : LeaveOp),
      r.status = "approved" ∨ r.status = "rejected" ∨ r.status = "cancelled" →
      leaveStep r op = none) := by
  refine ⟨fun f => rfl, ?_, ?_⟩
  · intro r op r' hstep
    cases op with
    | approve u t =>
      simp only [leaveStep] at hstep
      by_cases hp : r.status = "pending"
      · rw [if_pos hp] at hstep
        injection hstep with he
        subst he
        exact ⟨hp, Or.inl rfl⟩
      · rw [if_neg hp] at hstep
        exact absurd hstep (by simp)
    | reject u t reason =>
      simp only [leaveStep] at hstep
      by_cases hp : r.status = "pending"
      · rw [if_pos hp] at hstep
        by_cases hre : reason ≠ ""
        · rw [if_pos hre] at hstep
          injection hstep with he
          subst he
          exact ⟨hp, Or.inr rfl⟩
        · rw [if_neg hre] at hstep
          exact absurd hstep (by simp)
      · rw [if_neg hp] at hstep
        exact absurd hstep (by simp)
  · intro r op hst
    have hnp : ¬ r.status = "pending" := by
      rcases hst with h | h | h <;> rw [h] <;> decide
    cases op <;> simp only [leaveStep] <;> rw [if_neg hnp]

/-- Witness for C6: a concrete pending request steps to approved, and a
concrete cancelled request admits no step. -/
theorem C6_leave_request_lifecycle_witness :
    (samplePendingRequest.status = "pending" ∧
      ((applyLeaveUpdate samplePendingRequest "approved" (some "ADM001") 5 none).status =
          "approved" ∨
        (applyLeaveUpdate samplePendingRequest "approved" (some "ADM001") 5 none).status =
          "rejected")) ∧
    leaveStep sampleCancelledRequest (LeaveOp.approve "ADM001" 5) = none :=
  ⟨C6_leave_request_lifecycle.2.1 samplePendingRequest (LeaveOp.approve "ADM001" 5) _ rfl,
    C6_leave_request_lifecycle.2.2 sampleCancelledRequest (LeaveOp.approve "ADM001" 5)
      (Or.inr (Or.inr rfl))⟩

/-- C7 (code bug): resubmitting attendance for a (user, date) pair that
already has a record makes the source's upsert — whose conflict target
defaults to the primary key `id`, never hit because the incoming row gets a
fresh id — fail on the UNIQUE(user_id, date) constraint instead of
replacing the record; the upsert keyed on (user, date) that the spec
describes would replace it wholesale without creating a second record. -/
theorem C7_attendance_upsert_id_conflict :
    upsertAttendance [{ id := 1, payload := sampleAttendanceA }] 2 sampleAttendanceB =
      Except.error "duplicate key value violates unique constraint" ∧
    upsertAttendanceByUserDate [{ id := 1, payload := sampleAttendanceA }] 2 sampleAttendanceB =
      [{ id := 1, payload := sampleAttendanceB }] := ⟨rfl, rfl⟩

/-- Counterexample to C8 as stated: the user-update operation, given a
nonempty login different from the target's current one and held by no other
user, writes the new `user_id_login` — the field is not immutable. -/
theorem C8_login_mutable_counterexample :
    updateUserSubmit [sampleUserRow] sampleUserRow sampleUserForm =
      Except.ok [{ sampleUserRow with user_id_login := "EMP999" }] ∧
    sampleUserRow.user_id_login = "EMP001" ∧ ("EMP999" : String) ≠ "EMP001" :=
  ⟨rfl, rfl, by decide⟩

/-- C8 (amended): `user_id_login` stays unique across users — the update
operation preserves pairwise-distinct logins, re-checking for duplicates
before writing a new one — but it is mutable: the update replaces it when
the form supplies a nonempty, different, unheld value. -/
theorem C8_login_unique_preserved :
    ∀ (users : List UserRow) (target : UserRow) (f : UserUpdateForm) (users' : List UserRow),
      users.Pairwise (fun a b => a.id ≠ b.id) →
      users.Pairwise (fun a b => a.user_id_login ≠ b.user_id_login) →
      updateUserSubmit users target f = Except.ok users' →
      users'.Pairwise (fun a b => a.user_id_login ≠ b.user_id_login) := by
  intro users target f users' hid hlog hupd
  unfold updateUserSubmit at hupd
  by_cases hcng : f.user_id_login ≠ "" ∧ f.user_id_login ≠ target.user_id_login
  · rw [if_pos hcng] at hupd
    by_cases hdup : users.any
        (fun u => u.user_id_login = f.user_id_login ∧ u.id ≠ target.id) = true
    · rw [if_pos hdup] at hupd
      exact absurd hupd (by simp)
    · rw [if_neg hdup] at hupd
      injection hupd with he
      subst he
      have hnodup : ∀ u ∈ users, u.user_id_login = f.user_id_login → u.id = target.id := by
        intro u hu heq
        by_contra hne
        exact hdup (List.any_eq_true.mpr ⟨u, hu, by simp [heq, hne]⟩)
      rw [List.pairwise_map]
      refine (hid.and hlog).imp_of_mem ?_
      intro a b ha hb hab
      obtain ⟨hneid, hnelog⟩ := hab
      by_cases hA : a.id = target.id <;> by_cases hB : b.id = target.id
      · exact absurd (hA.trans hB.symm) hneid
      · rw [if_pos hA, if_neg hB]
        intro he
        exact hB (hnodup b hb (Eq.symm he))
      · rw [if_neg hA, if_pos hB]
        intro he
        exact hA (hnodup a ha he)
      · rw [if_neg hA, if_neg hB]
        exact hnelog
  · rw [if_neg hcng] at hupd
    injection hupd with he
    subst he
    rw [List.pairwise_map]
    refine hlog.imp ?_
    intro a b hne
    by_cases hA : a.id = target.id <;> by_cases hB : b.id = target.id <;>
      simp only [if_pos, if_neg, hA, hB, ite_true, ite_false, if_true, if_false] <;>
        exact hne

/-- Witness for C8 (amended): the concrete update that rewrites the login
yields a table whose logins are still pairwise distinct. -/
theorem C8_login_unique_preserved_witness :
    ([{ sampleUserRow with user_id_login := "EMP999" }] : List UserRow).Pairwise
      (fun a b => a.user_id_login ≠ b.user_id_login) :=
  C8_login_unique_preserved [sampleUserRow] sampleUserRow sampleUserForm
    [{ sampleUserRow with user_id_login := "EMP999" }] (by decide) (by decide) rfl

/-- C9: `days_requested` is fixed at creation from the submitted range, and
the approve/reject update leaves `days_requested`, `start_date`,
`end_date`, `leave_type`, `reason` and `user_id` unchanged, writing only
`status`, `approved_by`, `approved_at` and — exactly when a nonempty one is
given — `rejection_reason`. -/
theorem C9_leave_update_frame :
    (∀ f : LeaveRequestForm,
      (createLeaveRequest f).days_requested = computeDaysRequested f.start_date f.end_date) ∧
    (∀ (r : LeaveRequest) (st : String) (cu : Option String) (t : Int) (rr : Option String),
      (applyLeaveUpdate r st cu t rr).days_requested = r.days_requested ∧
      (applyLeaveUpdate r st cu t rr).start_date = r.start_date ∧
      (applyLeaveUpdate r st cu t rr).end_date = r.end_date ∧
      (applyLeaveUpdate r st cu t rr).leave_type = r.leave_type ∧
      (applyLeaveUpdate r st cu t rr).reason = r.reason ∧
      (applyLeaveUpdate r st cu t rr).user_id = r.user_id ∧
      (applyLeaveUpdate r st cu t rr).status = st ∧
      (applyLeaveUpdate r st cu t rr).approved_by = cu ∧
      (applyLeaveUpdate r st cu t rr).approved_at = some t) ∧
    (∀ (r : LeaveRequest) (st : String) (cu : Option String) (t : Int),
      (applyLeaveUpdate r st cu t none).rejection_reason = r.rejection_reason) ∧
    (∀ (r : LeaveRequest) (st : String) (cu : Option String) (t : Int) (s : String),
      (applyLeaveUpdate r st cu t (some s)).rejection_reason =
        (if s = "" then r.rejection_reason else some s)) := by
  refine ⟨fun f => rfl, ?_, fun r st cu t => rfl, ?_⟩
  · intro r st cu t rr
    exact ⟨rfl, rfl, rfl, rfl, rfl, rfl, rfl, rfl, rfl⟩
  · intro r st cu t s
    show (if s ≠ "" then some s else r.rejection_reason) =
      (if s = "" then r.rejection_reason else some s)
    by_cases hs : s = ""
    · rw [if_pos hs, if_neg (by simpa using hs)]
    · rw [if_neg hs, if_pos hs]

/-- C10: every approve/reject update writes `approved_by` with the acting
user's id and `approved_at` with the current time regardless of the chosen
status, so a rejected request also carries both approval fields. -/
theorem C10_approval_fields_always_written :
    ∀ (r : LeaveRequest) (st : String) (u : String) (t : Int) (rr : Option String),
      (applyLeaveUpdate r st (some u) t rr).approved_by = some u ∧
      (applyLeaveUpdate r st (some u) t rr).approved_at = some t :=
  fun _ _ _ _ _ => ⟨rfl, rfl⟩

end Harmony
